import Mathlib

/-! Verification development for the ReactOS apisets generator
(`dll/apisets/update.py`), as a shallow embedding.

The script parses Wine API-set spec files and ReactOS module spec files,
resolves forward targets for every API-set export in two passes, and emits
one spec file per API-set plus a CMake manifest with base addresses.

Modelling conventions:
  * Python machine-free integers are `Nat` (the arch bitmask fits in 4 bits);
    the one place the source computes a remainder of a possibly negative
    number (`(0x10000 - baseaddress) % 0x10000`) is modelled over `Int`,
    whose `%` agrees with Python's `%` for a positive modulus.
  * Exceptions are modelled with `Except String`; the recoverable
    `InvalidSpecError` and the fatal `AssertionError` / `KeyError` /
    `IndexError` of a parse are distinguished by the `ParseOutcome` type
    because the caller catches only the former.
  * Python object mutation is modelled by returning the updated record.
-/

namespace ApiSets

/-- Python: `bin(n).count("1")`, the number of one bits of `n`. -/
def popcount (n : Nat) : Nat := (Nat.toDigits 2 n).count ('1')

/-- Bit-flag set of target architectures (class `Arch`).
`i386 = 1`, `x86_64 = 2`, `arm = 4`, `arm64 = 8`, `Any = 15`. -/
structure Arch where
  val : Nat
deriving DecidableEq, Repr

/-- Python `str.startswith`, computed on the character lists (the library
`String.startsWith` walks byte positions and does not reduce in the kernel). -/
def strStartsWith (s p : String) : Bool := p.toList.isPrefixOf s.toList

/-- Python `str[n:]` on the character list. -/
def strDrop (s : String) (n : Nat) : String := String.mk (s.toList.drop n)

/-- Python `str.split(sep)` for a one-character separator, on character
lists. An empty string yields `[""]`, as in Python. -/
def splitOnCharAux (c : Char) : List Char → List Char → List String
  | [], cur => [String.mk cur.reverse]
  | x :: rest, cur =>
    if x = c then String.mk cur.reverse :: splitOnCharAux c rest []
    else splitOnCharAux c rest (x :: cur)

/-- Split a string at every occurrence of a separator character. -/
def splitOnChar (c : Char) (s : String) : List String :=
  splitOnCharAux c s.toList []

/-- Source `Arch.FROM_STR`: textual architecture name to flag value. -/
def Arch.fromStr (s : String) : Option Nat :=
  if s = "i386" then some 1
  else if s = "x86_64" then some 2
  else if s = "arm" then some 4
  else if s = "arm64" then some 8
  else if s = "any" then some 15
  else if s = "win32" then some 1
  else if s = "win64" then some 2
  else none

/-- Source `Arch.add`: or-in the sum of the flag values of a comma separated list.
`none` models the fatal `KeyError` on an unknown architecture name (the
`assert self._val != 0` cannot fire because every flag value is positive). -/
def Arch.add (a : Arch) (text : String) : Option Arch :=
  match (splitOnChar ',' text).mapM Arch.fromStr with
  | none => none
  | some vals =>
    let v := a.val ||| vals.foldl (· + ·) 0
    if v = 0 then none else some ⟨v⟩

/-- Source `Arch.has`: membership test on the bitmask. -/
def Arch.has (a : Arch) (v : Nat) : Bool := a.val &&& v != 0

/-- Source `Arch.__len__`: cardinality of the set, `bin(self._val).count("1")`. -/
def Arch.len (a : Arch) : Nat := popcount a.val

/-- Source `Arch.__add__`: union of the two bitmasks. -/
def Arch.union (a b : Arch) : Arch := ⟨a.val ||| b.val⟩

/-- Source `Arch.__sub__`: `self._val & ~other._val`. `Nat` has no complement, so
the same bits are obtained as `a.val - (a.val &&& b.val)`: the bits of
`a.val &&& b.val` form a subset of the bits of `a.val`, so the subtraction
clears exactly the common bits. -/
def Arch.diff (a b : Arch) : Arch := ⟨a.val - (a.val &&& b.val)⟩

/-- Source `Arch.__gt__`: comparison of the raw bitmask values (NOT cardinality). -/
def Arch.gt (a b : Arch) : Bool := b.val < a.val

/-- Source `Arch.TO_STR` in declaration order, used by `Arch.to_str`. -/
def Arch.toStrTable : List (Nat × String) :=
  [(1, "i386"), (2, "x86_64"), (4, "arm"), (8, "arm64")]

/-- Source `Arch.to_str`: comma-joined names of the member architectures, in the
declaration order of `TO_STR`. -/
def Arch.toStr (a : Arch) : String :=
  String.intercalate "," ((Arch.toStrTable.filter (fun p => p.1 &&& a.val != 0)).map Prod.snd)

/-- Source `IGNORE_OPTIONS` from the source, in order. -/
def IGNORE_OPTIONS : List String :=
  ["-norelay", "-ret16", "-ret64", "-register", "-private",
   "-noname", "-ordinal", "-i386", "-arch=", "-stub"]

/-- Source `FUNCTION_BLACKLIST` from the source. -/
def FUNCTION_BLACKLIST : List String :=
  ["_abs64", "_byteswap_uint64", "_byteswap_ulong", "_byteswap_ushort",
   "_rotl64", "_rotr64"]

/-- Source `ALIAS_DLL` from the source. -/
def ALIAS_DLL : List (String × String) :=
  [("ucrtbase", "msvcrt"), ("kernelbase", "kernel32"), ("shcore", "shlwapi"),
   ("combase", "ole32"), ("cfgmgr32", "setupapi"), ("wmi", "advapi32")]

/-- Alias rewriting of a forward-target module name (`ALIAS_DLL` lookup). -/
def aliasDll (m : String) : String :=
  ((ALIAS_DLL.find? (fun p => p.1 == m)).map Prod.snd).getD m

/-- One parsed export record (class `SpecEntry`).  `_forwarder` is `None` or a
two-element list in the source; both `None` and the cleared `[]` are falsy and
are modelled as `none`. -/
structure SpecEntry where
  ord : String
  callconv : Option String
  name : String
  arch : Arch
  forwarder : Option (String × String)
  noname : Bool
deriving DecidableEq, Repr

/-- Outcome of constructing a `SpecEntry` from a line. `invalid` is the
recoverable `InvalidSpecError` (caught by `SpecFile.parse`); `fatal` is an
uncaught `AssertionError`/`IndexError`/`KeyError`, which aborts the run. -/
inductive ParseOutcome where
  | invalid : ParseOutcome
  | fatal : String → ParseOutcome
  | ok : SpecEntry → ParseOutcome
deriving DecidableEq, Repr

/-- Tokenizer worker for `re.split(r'([\s\(\)#;])', text)` with empty and
whitespace tokens dropped: separators split the text, and the non-whitespace
separators are kept as their own tokens. -/
def tokenizeAux : List Char → List Char → List String
  | [], cur => if cur.isEmpty then [] else [String.mk cur.reverse]
  | c :: rest, cur =>
    if c.isWhitespace ∨ c = '(' ∨ c = ')' ∨ c = '#' ∨ c = ';' then
      (if cur.isEmpty then [] else [String.mk cur.reverse]) ++
        (if c.isWhitespace then [] else [String.mk [c]]) ++
        tokenizeAux rest []
    else
      tokenizeAux rest (c :: cur)

/-- Python `text.strip()` on the character list. -/
def stripChars (cs : List Char) : List Char :=
  ((cs.dropWhile Char.isWhitespace).reverse.dropWhile Char.isWhitespace).reverse

/-- Tokens of `text.strip()` under the source's separator class. -/
def tokenize (text : String) : List String :=
  tokenizeAux (stripChars text.toList) []

/-- Tokens with everything from the first comment token (`#` or `;`) on
discarded, as done with `tokens.index` in `SpecEntry.init`. -/
def strippedTokens (text : String) : List String :=
  (tokenize text).takeWhile (fun t => !(t == "#" || t == ";"))

/-- Python `str.isdigit` for ASCII byte strings: nonempty and all digits. -/
def isDigits (s : String) : Bool := !s.toList.isEmpty && s.toList.all Char.isDigit

/-- Source `'.'.split` with `maxsplit=2`, as in `tokens.pop(0).split('.', 2)`. -/
def splitDot2 (s : String) : List String :=
  match splitOnChar '.' s with
  | a :: b :: c :: rest => [a, b, String.intercalate "." (c :: rest)]
  | l => l

/-- Tail of `SpecEntry.init` after the option loop: the dash assert, the
argument-list skip and the forward-target split (field `noname` is set later
by the constructor wrapper and is `false` here). -/
def initAfterName (arch : Arch) (o cc name : String) (tokens : List String) : ParseOutcome :=
  if strStartsWith name "-" then .fatal "assert not name.startswith dash"
  else
    match tokens with
    | [] => .ok ⟨o, some cc, name, arch, none, false⟩
    | t :: _ =>
      let rest :=
        if t = "(" then
          if tokens.contains ")" then
            some (((tokens.drop 1).dropWhile (fun x => !(x == ")"))).drop 1)
          else none
        else some tokens
      match rest with
      | none => .fatal "assert close paren in tokens"
      | some ts =>
        match ts with
        | [] => .ok ⟨o, some cc, name, arch, none, false⟩
        | [fwd] =>
          match splitDot2 fwd with
          | [a, b] => .ok ⟨o, some cc, name, arch, some (aliasDll a, b), false⟩
          | [a] => .ok ⟨o, some cc, name, arch, some (aliasDll "self", a), false⟩
          | _ => .fatal "assert forwarder length in 0 2"
        | _ :: _ :: _ => .fatal "assert len tokens equals 1"

/-- Option-consuming loop of `SpecEntry.init`: while the name token starts
with one of `IGNORE_OPTIONS`, record `-arch=`/`-i386` restrictions and pop the
next token as the new name; afterwards an empty architecture set defaults to
`Any`. -/
def initOptions (arch : Arch) (o cc name : String) (tokens : List String) : ParseOutcome :=
  if IGNORE_OPTIONS.any (fun p => strStartsWith name p) then
    let archR :=
      if strStartsWith name "-arch=" then arch.add (strDrop name 6)
      else if name = "-i386" then arch.add "i386"
      else some arch
    match archR with
    | none => .fatal "KeyError bad architecture"
    | some arch' =>
      match tokens with
      | [] => .fatal "IndexError pop from empty list"
      | n :: rest => initOptions arch' o cc n rest
  else
    initAfterName (if popcount arch.val = 0 then ⟨15⟩ else arch) o cc name tokens

/-- Source `SpecEntry.init`: tokenize, strip comments, reject empty lines with the
recoverable signal, check the ordinal with the fatal `assert`, then pop the
calling convention and the name. -/
def specEntryInit (text : String) : ParseOutcome :=
  match strippedTokens text with
  | [] => .invalid
  | o :: rest =>
    if o = "@" ∨ isDigits o then
      match rest with
      | [] => .fatal "IndexError pop from empty list"
      | cc :: rest2 =>
        match rest2 with
        | [] => .fatal "IndexError pop from empty list"
        | n :: rest3 => initOptions ⟨0⟩ o cc n rest3
    else .fatal "assert ordinal is digit or at"

/-- Source `SpecEntry.__init__`: run `init`, then set `noname` and, for an unnamed
record that carries a forward target, replace the name by the target's
symbol name. -/
def mkSpecEntry (text : String) : ParseOutcome :=
  match specEntryInit text with
  | .ok e =>
    if e.name = "@" then
      match e.forwarder with
      | some f => .ok { e with noname := true, name := f.2 }
      | none => .ok { e with noname := true }
    else .ok e
  | r => r

/-- One module's spec file (class `SpecFile`): name plus the entries in input
order. The name-indexed `_functions` dictionary is recovered by filtering the
entry list, which yields the same per-name lists in the same order. -/
structure SpecFile where
  name : String
  entries : List SpecEntry
deriving DecidableEq, Repr

/-- Source `SpecFile.parse` over the lines of the file: construct an entry per line,
catching (and skipping) only `InvalidSpecError`; any fatal outcome aborts. -/
def parseLines : List String → Except String (List SpecEntry)
  | [] => .ok []
  | line :: rest =>
    if line = "" then parseLines rest
    else
      match mkSpecEntry line with
      | .invalid => parseLines rest
      | .fatal m => .error m
      | .ok e =>
        match parseLines rest with
        | .error m => .error m
        | .ok es => .ok (e :: es)

/-- Source `SpecFile.find`: the records under a name, in input order. -/
def SpecFile.find (f : SpecFile) (n : String) : List SpecEntry :=
  f.entries.filter (fun e => e.name == n)

/-- Source `SpecFile.find_arch`: union of the architecture sets of all records under
the name (empty when the name is unknown). -/
def SpecFile.find_arch (f : SpecFile) (n : String) : Arch :=
  (f.find n).foldl (fun a e => a.union e.arch) ⟨0⟩

/-- One step of the `find_callconv` accumulation: the first convention is
adopted; a later disagreeing record raises `assert callconv != 'extern'` and
otherwise overwrites the accumulated value. -/
def ccStep (cc : Option String) (func : SpecEntry) : Except String (Option String) :=
  match cc with
  | none => .ok func.callconv
  | some c =>
    if func.callconv = some c then .ok (some c)
    else if c = "extern" then .error "Cannot have data/function with same name"
    else .ok func.callconv

/-- Source `SpecFile.find_callconv`: fold `ccStep` over the records of the name. -/
def SpecFile.find_callconv (f : SpecFile) (n : String) : Except String (Option String) :=
  (f.find n).foldlM ccStep none

/-- Module-registry lookup (`module_lookup[name]`), as an association list in
registration order. -/
def lookupFind (lookup : List (String × SpecFile)) (m : String) : Option SpecFile :=
  (lookup.find? (fun p => p.1 == m)).map Prod.snd

/-- Source `SpecEntry.forwarder_module`: the forward target's module, when any. -/
def SpecEntry.forwarder_module (e : SpecEntry) : Option String :=
  e.forwarder.map Prod.fst

/-- Increment of a counter in an association list, keeping first-seen order. -/
def bumpCount : List (String × Nat) → String → List (String × Nat)
  | [], m => [(m, 1)]
  | (k, v) :: rest, m =>
    if k = m then (k, v + 1) :: rest else (k, v) :: bumpCount rest m

/-- Stable insertion into a list sorted by descending count. -/
def insertDescBy (p : String × Nat) : List (String × Nat) → List (String × Nat)
  | [] => [p]
  | q :: rest => if q.2 ≤ p.2 then p :: q :: rest else q :: insertDescBy p rest

/-- Stable sort by descending count (`sorted(modules, key=modules.get,
reverse=True)`); CPython 2 iterates the dictionary in an unspecified order,
modelled here as first-seen order. -/
def sortDescByCount (l : List (String × Nat)) : List (String × Nat) :=
  l.foldr insertDescBy []

/-- Source `SpecFile.forwarder_modules`: modules referenced as forward targets by
this file's records, ordered by descending usage count. -/
def SpecFile.forwarder_modules (f : SpecFile) : List String :=
  let counts := f.entries.foldl (fun acc e =>
    match e.forwarder_module with
    | some m => bumpCount acc m
    | none => acc) []
  (sortDescByCount counts).map Prod.fst

/-- Candidate scan of pass 1: for each module of the candidate list, fatally
check registry membership, compute the aggregate arch and calling convention,
and adopt the first module whose arch set is truthy (nonzero popcount). -/
def resolveLoop (e : SpecEntry) (lookup : List (String × SpecFile)) : List String → Except String (SpecEntry × Nat)
  | [] => .ok (e, 0)
  | m :: rest =>
    match lookupFind lookup m with
    | none => .error "assert module_name in module_lookup"
    | some md =>
      let fwdArch := md.find_arch e.name
      match md.find_callconv e.name with
      | .error msg => .error msg
      | .ok cc =>
        if popcount fwdArch.val = 0 then resolveLoop e lookup rest
        else .ok ({ e with arch := fwdArch, forwarder := some (m, e.name), callconv := cc }, 1)

/-- Source `SpecEntry.resolve_forwarders` (pass 1, per record): assert that an
existing forward target matches the record's name, skip unnamed records, then
clear the forward target and the architecture set and scan the candidates. -/
def SpecEntry.resolve_forwarders (e : SpecEntry) (lookup : List (String × SpecFile)) (tryModules : List String) : Except String (SpecEntry × Nat) :=
  match e.forwarder with
  | some f =>
    if f.2 = e.name then
      if e.noname = true ∧ e.name = "@" then .ok (e, 0)
      else resolveLoop { e with forwarder := none, arch := ⟨0⟩ } lookup tryModules
    else .error "assert forwarder name equals record name"
  | none =>
    if e.noname = true ∧ e.name = "@" then .ok (e, 0)
    else resolveLoop { e with forwarder := none, arch := ⟨0⟩ } lookup tryModules

/-- Pass 1 over a file's entries, accumulating the resolved count. -/
def resolveEntries (lookup : List (String × SpecFile)) (mods : List String) : List SpecEntry → Except String (List SpecEntry × Nat)
  | [] => .ok ([], 0)
  | e :: rest =>
    match e.resolve_forwarders lookup mods with
    | .error m => .error m
    | .ok (e', k) =>
      match resolveEntries lookup mods rest with
      | .error m => .error m
      | .ok (es, t) => .ok (e' :: es, k + t)

/-- Source `SpecFile.resolve_forwarders`: compute the candidate list once, then run
pass 1 over every entry; returns the updated file with (resolved, total). -/
def SpecFile.resolve_forwarders (f : SpecFile) (lookup : List (String × SpecFile)) : Except String (SpecFile × Nat × Nat) :=
  match resolveEntries lookup f.forwarder_modules f.entries with
  | .error m => .error m
  | .ok (es, total) => .ok ({ f with entries := es }, total, f.entries.length)

/-- Function-registry lookup: symbol name to the owning module name of every
concrete record exporting it, in registration order. Only `func.spec.name` is
consulted by the source, so the registry stores the module names. -/
def lookupList (flookup : List (String × List String)) (n : String) : List String :=
  ((flookup.find? (fun p => p.1 == n)).map Prod.snd).getD []

/-- First-seen deduplication worker. -/
def dedupFirstAux (seen : List String) : List String → List String
  | [] => []
  | x :: rest =>
    if x ∈ seen then dedupFirstAux seen rest
    else x :: dedupFirstAux (x :: seen) rest

/-- Source `list(set(...))` of the exporting modules; CPython's set iteration order
is implementation-defined and is modelled as first-seen order (no settled
claim depends on the tie order). -/
def dedupFirst (l : List String) : List String := dedupFirstAux [] l

/-- Winner scan of pass 2: `if mod is None or mod_arch > arch`, i.e. keep the
first module and afterwards replace it only for a strictly greater raw
bitmask value (`Arch.__gt__`). A missing registry entry is a fatal KeyError. -/
def pickBestAux (mlookup : List (String × SpecFile)) (n : String) (acc : Option (String × Arch)) : List String → Except String (Option (String × Arch))
  | [] => .ok acc
  | m :: rest =>
    match lookupFind mlookup m with
    | none => .error "KeyError module_lookup"
    | some sf =>
      let ma := sf.find_arch n
      match acc with
      | none => pickBestAux mlookup n (some (m, ma)) rest
      | some (bm, ba) =>
        if ba.val < ma.val then pickBestAux mlookup n (some (m, ma)) rest
        else pickBestAux mlookup n (some (bm, ba)) rest

/-- Source `SpecEntry.extra_forwarders` (pass 2, per record): records already
resolved count as found; unnamed records are skipped; otherwise the global
function registry supplies the exporting modules, a multi-module tie is
settled by `pickBestAux`, and the winner's arch and calling convention are
adopted. -/
def SpecEntry.extra_forwarders (e : SpecEntry) (flookup : List (String × List String)) (mlookup : List (String × SpecFile)) : Except String (SpecEntry × Nat) :=
  if e.forwarder.isSome then .ok (e, 1)
  else if e.noname = true ∧ e.name = "@" then .ok (e, 0)
  else
    match lookupList flookup e.name with
    | [] => .ok (e, 0)
    | lst =>
      let modules0 := dedupFirst lst
      match (if 1 < modules0.length then
              match pickBestAux mlookup e.name none modules0 with
              | .error m => .error m
              | .ok (some (bm, _)) => .ok [bm]
              | .ok none => .error "IndexError"
             else .ok modules0 : Except String (List String)) with
      | .error m => .error m
      | .ok [] => .error "IndexError"
      | .ok (mod :: _) =>
        match lookupFind mlookup mod with
        | none => .error "KeyError module_lookup"
        | some sf =>
          match sf.find_callconv e.name with
          | .error m => .error m
          | .ok cc => .ok ({ e with forwarder := some (mod, e.name), arch := sf.find_arch e.name, callconv := cc }, 1)

/-- Pass 2 over a file's entries. -/
def extraEntries (flookup : List (String × List String)) (mlookup : List (String × SpecFile)) : List SpecEntry → Except String (List SpecEntry × Nat)
  | [] => .ok ([], 0)
  | e :: rest =>
    match e.extra_forwarders flookup mlookup with
    | .error m => .error m
    | .ok (e', k) =>
      match extraEntries flookup mlookup rest with
      | .error m => .error m
      | .ok (es, t) => .ok (e' :: es, k + t)

/-- Source `SpecEntry.write` with explicit recursion fuel. The only recursive call
removes the x86_64 bit from the architecture set, so a fuel of 2 always
suffices; exhausted fuel is modelled as an (unreachable) error. Returns the
emitted lines in file order together with the size estimate. -/
def writeFuel : Nat → SpecEntry → Except String (List String × Nat)
  | 0, _ => .error "recursion fuel exhausted"
  | fuel + 1, e =>
    let opts0 := if e.noname then " -noname" else ""
    if e.name = "@" ∧ e.ord = "@" then .error "assert ord not at"
    else
      let name1 := if e.name = "@" then "Ordinal" ++ e.ord else e.name
      match e.forwarder with
      | none => .ok ([e.ord ++ " stub" ++ opts0 ++ " " ++ name1 ++ "\n"], 0x1000)
      | some (fm, fs) =>
        if e.arch = (⟨0⟩ : Arch) then .error "assert arch not empty"
        else
          let name2 := if e.noname then "@" else e.name
          if e.callconv = some "extern" then
            if e.arch.has 2 then
              match writeFuel fuel { e with arch := e.arch.diff ⟨2⟩ } with
              | .error m => .error m
              | .ok (lines, sz) =>
                let arch2 : Arch := ⟨2⟩
                let opts := if ¬ arch2 = (⟨15⟩ : Arch) then opts0 ++ " -arch=" ++ arch2.toStr else opts0
                .ok (lines ++ [e.ord ++ " extern" ++ opts ++ " " ++ name2 ++ " " ++ fm ++ ".__imp_" ++ fs ++ "\n"], sz + 0x100)
            else
              let opts := if ¬ e.arch = (⟨15⟩ : Arch) then opts0 ++ " -arch=" ++ e.arch.toStr else opts0
              .ok ([e.ord ++ " extern" ++ opts ++ " " ++ name2 ++ " " ++ fm ++ "._imp__" ++ fs ++ "\n"], 0x100)
          else
            let opts := if ¬ e.arch = (⟨15⟩ : Arch) then opts0 ++ " -arch=" ++ e.arch.toStr else opts0
            .ok ([e.ord ++ " stdcall" ++ opts ++ " " ++ name2 ++ "() " ++ fm ++ "." ++ fs ++ "\n"], 0x100)

/-- Source `SpecEntry.write`. -/
def SpecEntry.write (e : SpecEntry) : Except String (List String × Nat) :=
  writeFuel 2 e

/-- Emission loop of `SpecFile.write` with its `written` set: an entry whose
name was already written (the set starts as the function blacklist) is
dropped; otherwise its lines and size estimate accumulate. -/
def writeEntries (written : List String) : List SpecEntry → Except String (List String × Nat)
  | [] => .ok ([], 0)
  | e :: rest =>
    if e.name ∈ written then writeEntries written rest
    else
      match e.write with
      | .error m => .error m
      | .ok (lines, sz) =>
        match writeEntries (e.name :: written) rest with
        | .error m => .error m
        | .ok (lines2, sz2) => .ok (lines ++ lines2, sz + sz2)

/-- Source `SpecFile.write`: emit the deduplicated entries, the `written` set being
seeded with `FUNCTION_BLACKLIST`. -/
def SpecFile.write (f : SpecFile) : Except String (List String × Nat) :=
  writeEntries FUNCTION_BLACKLIST f.entries

/-- The base-address advance of `run`: `baseaddress += size` followed by
`baseaddress += (0x10000 - baseaddress) % 0x10000`, i.e. rounding up to the
next 64KB boundary. The Python remainder of a negative number is computed
over `Int`, whose `%` also returns a nonnegative result here. -/
def align64K (b : Nat) : Nat := b + ((65536 - (b : Int)) % 65536).toNat

/-- Base addresses assigned to consecutive modules from a starting address:
each module receives the current address, which then advances by its size
estimate rounded up to the next 64KB boundary. -/
def baseAddressesFrom (base : Nat) : List Nat → List Nat
  | [] => []
  | s :: rest => base :: baseAddressesFrom (align64K (base + s)) rest

/-- The manifest base addresses of `run`, starting at `0x60000000`. -/
def apisetBases (sizes : List Nat) : List Nat :=
  baseAddressesFrom 0x60000000 sizes

/-- The first candidate (in candidate order) whose registry entry exports the
name with a truthy aggregate architecture set — pass 1's adoption condition,
stated independently of the scan so that the scan can be compared to it. -/
def firstExporting (lookup : List (String × SpecFile)) (n : String) : List String → Option String
  | [] => none
  | m :: rest =>
    match lookupFind lookup m with
    | some sf =>
      if popcount (sf.find_arch n).val = 0 then firstExporting lookup n rest else some m
    | none => firstExporting lookup n rest

/-! Concrete inputs used by the claim witnesses and counterexamples. -/

/-- A blacklisted record for which the resolver found a forward target. -/
def rotlEntry : SpecEntry := ⟨"1", some "stdcall", "_rotl64", ⟨15⟩, some ("ntdll", "_rotl64"), false⟩

/-- An API-set whose only record is the blacklisted `_rotl64`. -/
def rotlFile : SpecFile := ⟨"api-blk", [rotlEntry]⟩

/-- A resolved record whose calling convention is `cdecl`. -/
def eC7 : SpecEntry := ⟨"1", some "cdecl", "Foo", ⟨15⟩, some ("bar", "Foo"), false⟩

/-- A second resolved `cdecl` record, for the amended-claim witness. -/
def eC7b : SpecEntry := ⟨"5", some "cdecl", "Func", ⟨15⟩, some ("mod", "Func"), false⟩

/-- A data-symbol (`extern`) record named `Foo`. -/
def e8ext : SpecEntry := ⟨"1", some "extern", "Foo", ⟨15⟩, none, false⟩

/-- A function (`cdecl`) record named `Foo`. -/
def e8cdecl : SpecEntry := ⟨"2", some "cdecl", "Foo", ⟨15⟩, none, false⟩

/-- A module whose `Foo` records are `extern` first, then `cdecl`. -/
def f8ef : SpecFile := ⟨"m", [e8ext, e8cdecl]⟩

/-- A module whose `Foo` records are `cdecl` first, then `extern`. -/
def f8es : SpecFile := ⟨"m", [e8cdecl, e8ext]⟩

/-- A module exporting `Foo` for the three architectures i386, x86_64 and arm
(bitmask 7, cardinality 3). -/
def sfM1 : SpecFile := ⟨"m1", [⟨"1", some "stdcall", "Foo", ⟨7⟩, none, false⟩]⟩

/-- A module exporting `Foo` for arm64 alone (bitmask 8, cardinality 1). -/
def sfM2 : SpecFile := ⟨"m2", [⟨"1", some "stdcall", "Foo", ⟨8⟩, none, false⟩]⟩

/-- Module registry with `m1` and `m2`. -/
def mlookupC1 : List (String × SpecFile) := [("m1", sfM1), ("m2", sfM2)]

/-- Function registry: `Foo` is exported by `m1` and by `m2`. -/
def flookupC1 : List (String × List String) := [("Foo", ["m1", "m2"])]

/-- An unresolved API-set record named `Foo`. -/
def eC1 : SpecEntry := ⟨"1", some "stdcall", "Foo", ⟨15⟩, none, false⟩

/-- An API-set record that carries a forward target to `kernel32` from its
source line. -/
def eC4 : SpecEntry := ⟨"1", some "stdcall", "Foo", ⟨15⟩, some ("kernel32", "Foo"), false⟩

/-- An API-set whose only record is `eC4`. -/
def apiC4 : SpecFile := ⟨"api-y", [eC4]⟩

/-- Registry whose `kernel32` exports nothing. -/
def lookupC4 : List (String × SpecFile) := [("kernel32", ⟨"kernel32", []⟩)]

/-- The record `eC4` after pass 1 cleared and failed to re-resolve it. -/
def eC4cleared : SpecEntry := ⟨"1", some "stdcall", "Foo", ⟨0⟩, none, false⟩

/-- A sibling record that already forwards to module `m1`, making `m1` the
candidate module of its API-set. -/
def eC5sib : SpecEntry := ⟨"1", some "stdcall", "X", ⟨15⟩, some ("m1", "X"), false⟩

/-- An API-set containing the sibling record and an unresolved `Foo`. -/
def fC5 : SpecFile := ⟨"api-z", [eC5sib, eC1]⟩

/-- Registry for the pass-1 witness: `m1` exports `Foo` for i386. -/
def lookupC5 : List (String × SpecFile) :=
  [("m1", ⟨"m1", [⟨"1", some "stdcall", "Foo", ⟨1⟩, none, false⟩]⟩)]

/-- A resolved `extern` data record whose architecture set is i386+x86_64. -/
def eC6 : SpecEntry := ⟨"1", some "extern", "SomeVar", ⟨3⟩, some ("module", "SomeVar"), false⟩

/-- A record whose source forward target names a different symbol. -/
def eC10bad : SpecEntry := ⟨"1", some "stdcall", "Foo", ⟨15⟩, some ("kernel32", "Bar"), false⟩

/-- The entry parsed from `@ stdcall @ kernel32.Foo`: unnamed, so the
constructor replaced the name by the forward target's symbol. -/
def eC10at : SpecEntry := ⟨"@", some "stdcall", "Foo", ⟨15⟩, some ("kernel32", "Foo"), true⟩

end ApiSets

namespace ApiSets

/-! Sanity checks of the embedding on concrete inputs. -/

example : strippedTokens "@ stdcall @ kernel32.Foo" = ["@", "stdcall", "@", "kernel32.Foo"] := by rfl
example : mkSpecEntry "@ stdcall @ kernel32.Foo" =
    .ok ⟨"@", some "stdcall", "Foo", ⟨15⟩, some ("kernel32", "Foo"), true⟩ := by rfl
example : mkSpecEntry "1 stdcall -arch=arm SomeFunc(ptr long) dummy.SomeFunc" =
    .ok ⟨"1", some "stdcall", "SomeFunc", ⟨4⟩, some ("dummy", "SomeFunc"), false⟩ := by rfl
example : mkSpecEntry "# comment" = .invalid := by rfl
example : mkSpecEntry "foo stdcall Bar" = .fatal "assert ordinal is digit or at" := by rfl
example : mkSpecEntry "2 cdecl Bare Sym" =
    .ok ⟨"2", some "cdecl", "Bare", ⟨15⟩, some ("self", "Sym"), false⟩ := by rfl
example : mkSpecEntry "2 cdecl Bare Sym extra" = .fatal "assert len tokens equals 1" := by rfl
example : mkSpecEntry "3 extern Var ucrtbase.Var" =
    .ok ⟨"3", some "extern", "Var", ⟨15⟩, some ("msvcrt", "Var"), false⟩ := by rfl
example : align64K 0x60000000 = 0x60000000 := by rfl
example : align64K 0x60000100 = 0x60010000 := by rfl
example : apisetBases [0x100, 0x1000] = [0x60000000, 0x60010000] := by rfl

/-! Claim C2: the write deduplication set is seeded with the blacklist. -/

/-- Emission with a `written` set containing the blacklist never writes an
entry with a blacklisted name, so those entries can be filtered away without
changing the output. -/
theorem writeEntries_filter_blacklist (es : List SpecEntry) :
    ∀ (w : List String), (∀ x, x ∈ FUNCTION_BLACKLIST → x ∈ w) →
    writeEntries w es = writeEntries w (es.filter (fun e => !decide (e.name ∈ FUNCTION_BLACKLIST))) := by
  induction es with
  | nil => intro w _; rfl
  | cons e rest ih =>
    intro w hw
    rw [List.filter_cons]
    by_cases hb : e.name ∈ FUNCTION_BLACKLIST
    · have hcond : (!decide (e.name ∈ FUNCTION_BLACKLIST)) = false := by simp [hb]
      rw [hcond]
      simp only [Bool.false_eq_true, if_false]
      simp only [writeEntries, if_pos (hw _ hb)]
      exact ih w hw
    · have hcond : (!decide (e.name ∈ FUNCTION_BLACKLIST)) = true := by simp [hb]
      rw [hcond]
      simp only [if_pos]
      by_cases hwm : e.name ∈ w
      · simp only [writeEntries, if_pos hwm]
        exact ih w hw
      · simp only [writeEntries, if_neg hwm]
        rw [ih (e.name :: w) (fun x hx => List.mem_cons_of_mem _ (hw x hx))]

/-- C2 (corrected): a record whose name is in `FUNCTION_BLACKLIST` is never
written at all — the output is identical to the output for the file with all
blacklisted records removed, so no stub line (nor any line) is emitted for
them. -/
theorem c2_blacklisted_records_dropped (f : SpecFile) :
    f.write = SpecFile.write { f with entries := f.entries.filter (fun e => !decide (e.name ∈ FUNCTION_BLACKLIST)) } :=
  writeEntries_filter_blacklist f.entries FUNCTION_BLACKLIST (fun _ h => h)

/-- C2 counterexample: `rotlFile`'s only record is the blacklisted `_rotl64`,
and it carries a valid forward target; the emitted file contains no line for
it at all — in particular no stub line — refuting the claim that blacklisted
records are forced to stub form on output. -/
theorem c2_counterexample :
    rotlEntry.name ∈ FUNCTION_BLACKLIST ∧ rotlEntry.forwarder.isSome = true ∧
    rotlFile.write = .ok ([], 0) := ⟨by decide, by rfl, by rfl⟩

/-! Claim C7: the calling convention written on a forward line. -/

/-- C7 (corrected): for every resolved record whose calling convention is not
`extern`, the emitted forward line carries the literal convention `stdcall`,
whatever the record's convention is — the convention field of the record is
not copied into the line. -/
theorem c7_forward_line_callconv_stdcall (e : SpecEntry) (fm fs : String)
    (hf : e.forwarder = some (fm, fs))
    (hcc : ¬ e.callconv = some "extern")
    (harch : ¬ e.arch = (⟨0⟩ : Arch))
    (hname : ¬ e.name = "@") :
    e.write = .ok ([e.ord ++ " stdcall" ++
      (if ¬ e.arch = (⟨15⟩ : Arch)
        then (if e.noname then " -noname" else "") ++ " -arch=" ++ e.arch.toStr
        else (if e.noname then " -noname" else "")) ++
      " " ++ (if e.noname then "@" else e.name) ++ "() " ++ fm ++ "." ++ fs ++ "\n"], 0x100) := by
  unfold SpecEntry.write writeFuel
  simp [hf, hcc, harch, hname]

/-- C7 witness: the amended claim at the concrete `cdecl` record `eC7b`. -/
theorem c7_witness :
    eC7b.write = .ok (["5 stdcall Func() mod.Func\n"], 0x100) :=
  c7_forward_line_callconv_stdcall eC7b "mod" "Func" rfl (by decide) (by decide) (by decide)

/-- C7 counterexample: a resolved record whose convention is `cdecl` is
emitted with the convention field `stdcall`, refuting the claim that the
emitted field equals the record's convention for every value. -/
theorem c7_counterexample :
    eC7.callconv = some "cdecl" ∧
    eC7.write = .ok (["1 stdcall Foo() bar.Foo\n"], 0x100) := ⟨rfl, by rfl⟩

/-! Claim C8: calling-convention disagreement involving `extern`. -/

/-- C8 (corrected): over a two-record module, a disagreement aborts exactly
when the FIRST record (the accumulated value) is the `extern` tag; when the
`extern` record comes second, the disagreement is tolerated and `extern`
silently wins as the last differing value. -/
theorem c8_extern_disagreement_is_order_sensitive (f : SpecFile) (n : String) (e1 e2 : SpecEntry)
    (hents : f.entries = [e1, e2]) (h1 : e1.name = n) (h2 : e2.name = n) :
    (e1.callconv = some "extern" → ¬ e2.callconv = some "extern" →
      f.find_callconv n = .error "Cannot have data/function with same name") ∧
    (∀ c, e1.callconv = some c → ¬ c = "extern" → e2.callconv = some "extern" →
      f.find_callconv n = .ok (some "extern")) := by
  have hfind : f.find n = [e1, e2] := by
    simp [SpecFile.find, hents, h1, h2]
  constructor
  · intro hx1 hx2
    simp [SpecFile.find_callconv, hfind, List.foldlM, ccStep, hx1, hx2,
      Bind.bind, Except.bind, Pure.pure, Except.pure]
  · intro c hc1 hc2 hx2
    have hne : ¬ ("extern" = c) := fun h => hc2 h.symm
    simp [SpecFile.find_callconv, hfind, List.foldlM, ccStep, hc1, hc2, hx2, hne,
      Bind.bind, Except.bind, Pure.pure, Except.pure]

/-- C8 witness: the amended claim at the two concrete orders — `extern` first
aborts, `extern` second returns `extern` without aborting. -/
theorem c8_witness :
    f8ef.find_callconv "Foo" = .error "Cannot have data/function with same name" ∧
    f8es.find_callconv "Foo" = .ok (some "extern") :=
  ⟨(c8_extern_disagreement_is_order_sensitive f8ef "Foo" e8ext e8cdecl rfl rfl rfl).1 rfl (by decide),
   (c8_extern_disagreement_is_order_sensitive f8es "Foo" e8cdecl e8ext rfl rfl rfl).2 "cdecl" rfl (by decide) rfl⟩

/-- C8 counterexample: the module whose `Foo` records are `cdecl` then
`extern` — one side of the disagreement is the `extern` tag, yet the run does
not abort: `find_callconv` returns `extern`, refuting "regardless of whether
the extern record comes first or second". -/
theorem c8_counterexample :
    f8es.find_callconv "Foo" = .ok (some "extern") := by rfl

/-! Claim C1: the measure used by pass 2 to pick the winning module. -/

/-- The pass-2 winner scan keeps, at every step, a module whose aggregate
architecture bitmask VALUE dominates everything scanned so far (and dominates
the incoming accumulator). -/
theorem pickBestAux_max (mlookup : List (String × SpecFile)) (n : String) :
    ∀ (mods : List String) (acc : Option (String × Arch)) (c : String) (a : Arch),
    pickBestAux mlookup n acc mods = .ok (some (c, a)) →
    ((acc = some (c, a)) ∨ (c ∈ mods ∧ ∃ sf, lookupFind mlookup c = some sf ∧ a = sf.find_arch n)) ∧
    (∀ p : String × Arch, acc = some p → p.2.val ≤ a.val) ∧
    (∀ m, m ∈ mods → ∀ sf, lookupFind mlookup m = some sf → (sf.find_arch n).val ≤ a.val) := by
  intro mods
  induction mods with
  | nil =>
    intro acc c a h
    simp only [pickBestAux, Except.ok.injEq] at h
    subst h
    refine ⟨Or.inl rfl, ?_, ?_⟩
    · intro p hp
      cases hp
      exact le_refl _
    · intro m hm
      cases hm
  | cons m rest ih =>
    intro acc c a h
    simp only [pickBestAux] at h
    cases hl : lookupFind mlookup m with
    | none =>
      simp only [hl] at h
      cases h
    | some sf =>
      simp only [hl] at h
      cases hacc : acc with
      | none =>
        simp only [hacc] at h
        obtain ⟨ih1, ih2, ih3⟩ := ih _ c a h
        refine ⟨?_, ?_, ?_⟩
        · rcases ih1 with h1 | h1
          · cases h1
            exact Or.inr ⟨List.mem_cons_self _ _, sf, hl, rfl⟩
          · exact Or.inr ⟨List.mem_cons_of_mem _ h1.1, h1.2⟩
        · intro p hp
          cases hp
        · intro m' hm' sf' hsf'
          rcases List.mem_cons.mp hm' with rfl | hm'
          · have hsf2 : sf' = sf := by rw [hl] at hsf'; cases hsf'; rfl
            rw [hsf2]
            exact ih2 _ rfl
          · exact ih3 m' hm' sf' hsf'
      | some p =>
        obtain ⟨bm, ba⟩ := p
        simp only [hacc] at h
        by_cases hlt : ba.val < (sf.find_arch n).val
        · rw [if_pos hlt] at h
          obtain ⟨ih1, ih2, ih3⟩ := ih _ c a h
          have hma : (sf.find_arch n).val ≤ a.val := ih2 (m, sf.find_arch n) rfl
          refine ⟨?_, ?_, ?_⟩
          · rcases ih1 with h1 | h1
            · cases h1
              exact Or.inr ⟨List.mem_cons_self _ _, sf, hl, rfl⟩
            · exact Or.inr ⟨List.mem_cons_of_mem _ h1.1, h1.2⟩
          · intro p hp
            cases hp
            exact le_trans (le_of_lt hlt) hma
          · intro m' hm' sf' hsf'
            rcases List.mem_cons.mp hm' with rfl | hm'
            · have : sf' = sf := by rw [hl] at hsf'; cases hsf'; rfl
              subst this
              exact hma
            · exact ih3 m' hm' sf' hsf'
        · rw [if_neg hlt] at h
          obtain ⟨ih1, ih2, ih3⟩ := ih _ c a h
          have hba : ba.val ≤ a.val := ih2 (bm, ba) rfl
          refine ⟨?_, ?_, ?_⟩
          · rcases ih1 with h1 | h1
            · exact Or.inl h1
            · exact Or.inr ⟨List.mem_cons_of_mem _ h1.1, h1.2⟩
          · intro p hp
            cases hp
            exact hba
          · intro m' hm' sf' hsf'
            rcases List.mem_cons.mp hm' with rfl | hm'
            · have : sf' = sf := by rw [hl] at hsf'; cases hsf'; rfl
              subst this
              exact le_trans (le_of_not_lt hlt) hba
            · exact ih3 m' hm' sf' hsf'

/-- C1 (corrected): when pass 2 settles a multi-exporter name, the selected
module maximises the RAW BITMASK VALUE of the aggregate architecture set
(`Arch.__gt__` compares `_val`), not its cardinality; on equal bitmask values
the earlier module in iteration order is kept. -/
theorem c1_pass2_picks_greatest_bitmask (mlookup : List (String × SpecFile)) (n : String)
    (mods : List String) (c : String) (a : Arch)
    (h : pickBestAux mlookup n none mods = .ok (some (c, a))) :
    c ∈ mods ∧ (∃ sf, lookupFind mlookup c = some sf ∧ a = sf.find_arch n) ∧
    ∀ m, m ∈ mods → ∀ sf, lookupFind mlookup m = some sf → (sf.find_arch n).val ≤ a.val := by
  obtain ⟨h1, _, h3⟩ := pickBestAux_max mlookup n mods none c a h
  rcases h1 with h1 | h1
  · cases h1
  · exact ⟨h1.1, h1.2, h3⟩

/-- C1 witness: the amended claim at the concrete two-module registry, where
the scan returns `m2` with bitmask 8. -/
theorem c1_witness :
    "m2" ∈ ["m1", "m2"] ∧
    (∃ sf, lookupFind mlookupC1 "m2" = some sf ∧ (⟨8⟩ : Arch) = sf.find_arch "Foo") ∧
    ∀ m, m ∈ ["m1", "m2"] → ∀ sf, lookupFind mlookupC1 m = some sf →
      (sf.find_arch "Foo").val ≤ (8 : Nat) :=
  c1_pass2_picks_greatest_bitmask mlookupC1 "Foo" ["m1", "m2"] "m2" ⟨8⟩ (by rfl)

/-- C1 counterexample: `Foo` is exported by `m1` with architecture set
{i386, x86_64, arm} (bitmask 7, cardinality 3) and by `m2` with {arm64}
(bitmask 8, cardinality 1). Pass 2 adopts `m2`, the module with the GREATER
BITMASK but the strictly SMALLER cardinality, refuting the claim that the
comparison orders architecture sets by cardinality. -/
theorem c1_counterexample :
    SpecEntry.extra_forwarders eC1 flookupC1 mlookupC1 =
      .ok (⟨"1", some "stdcall", "Foo", ⟨8⟩, some ("m2", "Foo"), false⟩, 1) ∧
    Arch.len ⟨8⟩ = 1 ∧ Arch.len ⟨7⟩ = 3 := ⟨by rfl, by rfl, by rfl⟩

/-! Claim C3: the signal raised for a bad ordinal token. -/

/-- C3 (corrected): a line reducing to zero tokens raises the recoverable
invalid-record signal and is skipped by the caller, but a nonempty line whose
ordinal token is neither numeric nor `@` fails the `assert` — a fatal error
that propagates out of `parse` and aborts the whole run instead of being
skipped. -/
theorem c3_bad_ordinal_aborts (line : String) (rest : List String) :
    (¬ line = "" → strippedTokens line = [] → parseLines (line :: rest) = parseLines rest) ∧
    (∀ t ts, strippedTokens line = t :: ts → ¬ t = "@" → isDigits t = false →
      parseLines (line :: rest) = .error "assert ordinal is digit or at") := by
  constructor
  · intro hne hemp
    have hinv : mkSpecEntry line = .invalid := by
      simp [mkSpecEntry, specEntryInit, hemp]
    simp only [parseLines, if_neg hne, hinv]
  · intro t ts htok hat hdig
    have hne : ¬ line = "" := by
      intro hE
      subst hE
      rw [show strippedTokens "" = [] from rfl] at htok
      cases htok
    have hfat : mkSpecEntry line = .fatal "assert ordinal is digit or at" := by
      simp [mkSpecEntry, specEntryInit, htok, hat, hdig]
    simp only [parseLines, if_neg hne, hfat]

/-- C3 witness: the amended claim at a comment-only line (skipped) and at a
line with ordinal token `foo` (fatal abort). -/
theorem c3_witness :
    parseLines ["# only a comment", "1 stdcall Foo ntdll.Foo"] = parseLines ["1 stdcall Foo ntdll.Foo"] ∧
    parseLines ["foo stdcall Bar"] = .error "assert ordinal is digit or at" :=
  ⟨(c3_bad_ordinal_aborts "# only a comment" ["1 stdcall Foo ntdll.Foo"]).1 (by decide) (by rfl),
   (c3_bad_ordinal_aborts "foo stdcall Bar" []).2 "foo" ["stdcall", "Bar"] (by rfl) (by decide) (by rfl)⟩

/-- C3 counterexample: the line `foo stdcall Bar` has an ordinal token that is
neither numeric nor `@`; its outcome is the fatal assertion, NOT the
recoverable `InvalidSpecError` that zero-token lines get, refuting the claim
that both fail with the same recoverable signal. -/
theorem c3_counterexample :
    mkSpecEntry "foo stdcall Bar" = .fatal "assert ordinal is digit or at" ∧
    ¬ mkSpecEntry "foo stdcall Bar" = ParseOutcome.invalid ∧
    mkSpecEntry "" = ParseOutcome.invalid := ⟨by rfl, by decide, by rfl⟩

/-! Claim C4: what pass 1 does to records that already have a forward target. -/

/-- C4 (corrected): pass 1 does NOT leave already-forwarded records unchanged.
After the name assertion, it clears the forward target and the architecture
set and re-resolves the record exactly as if it had arrived unresolved — so a
record can lose its source forward target (becoming a stub) or have it
replaced during pass 1. -/
theorem c4_pass1_reresolves_forwarded (e : SpecEntry) (m : String)
    (lookup : List (String × SpecFile)) (mods : List String)
    (h1 : e.forwarder = some (m, e.name)) (h2 : ¬ (e.noname = true ∧ e.name = "@")) :
    e.resolve_forwarders lookup mods =
      SpecEntry.resolve_forwarders { e with forwarder := none, arch := ⟨0⟩ } lookup mods := by
  cases e with
  | mk o cc nm ar fw nn =>
    simp only at h1
    subst h1
    simp only [SpecEntry.resolve_forwarders, if_pos rfl, if_true]
    rw [if_neg h2, if_neg h2]

/-- C4 witness: the amended claim at the concrete record `eC4`, which forwards
to `kernel32.Foo` from its source line. -/
theorem c4_witness :
    SpecEntry.resolve_forwarders eC4 [] [] =
      SpecEntry.resolve_forwarders { eC4 with forwarder := none, arch := ⟨0⟩ } [] [] :=
  c4_pass1_reresolves_forwarded eC4 "kernel32" [] [] rfl (by decide)

/-- C4 counterexample: the API-set record `eC4` enters pass 1 with forward
target `kernel32.Foo`; `kernel32` exists in the registry but does not export
`Foo`, and pass 1 leaves the record with NO forward target and an EMPTY
architecture set — its fields were changed (indeed un-resolved), refuting the
claim that pass 1 leaves already-forwarded records unchanged. -/
theorem c4_counterexample :
    apiC4.resolve_forwarders lookupC4 = .ok (⟨"api-y", [eC4cleared]⟩, 0, 1) ∧
    ¬ eC4cleared.forwarder = eC4.forwarder := ⟨by rfl, by decide⟩

/-! Claim C5: pass 1 adopts the first exporting candidate. -/

/-- If the candidate scan of pass 1 resolves a record, the adopted module is
the first candidate whose registry entry exports the record's name with a
truthy architecture set, and the forward target is (that module, the name). -/
theorem resolveLoop_first (lookup : List (String × SpecFile)) (e : SpecEntry) :
    ∀ (mods : List String) (e' : SpecEntry),
    resolveLoop e lookup mods = .ok (e', 1) →
    ∃ m, firstExporting lookup e.name mods = some m ∧ m ∈ mods ∧ e'.forwarder = some (m, e.name) := by
  intro mods
  induction mods with
  | nil =>
    intro e' h
    simp only [resolveLoop, Except.ok.injEq, Prod.mk.injEq] at h
    exact absurd h.2 one_ne_zero.symm
  | cons m rest ih =>
    intro e' h
    simp only [resolveLoop] at h
    cases hl : lookupFind lookup m with
    | none =>
      simp only [hl] at h
      cases h
    | some md =>
      simp only [hl] at h
      cases hcc : md.find_callconv e.name with
      | error msg =>
        simp only [hcc] at h
        cases h
      | ok cc =>
        simp only [hcc] at h
        by_cases hz : popcount (md.find_arch e.name).val = 0
        · rw [if_pos hz] at h
          obtain ⟨m', hfe, hm', hfwd⟩ := ih e' h
          refine ⟨m', ?_, List.mem_cons_of_mem _ hm', hfwd⟩
          simp only [firstExporting, hl, if_pos hz]
          exact hfe
        · rw [if_neg hz] at h
          injection h with h
          injection h with h1 h2
          refine ⟨m, ?_, List.mem_cons_self _ _, ?_⟩
          · simp only [firstExporting, hl, if_neg hz]
          · rw [← h1]

/-- C5 (confirmed): every record pass 1 resolves is resolved to a member of
the API-set's own `forwarder_modules` candidate list, namely to the FIRST
candidate in that (popularity) order whose registry entry exports the
record's name. -/
theorem c5_pass1_first_candidate (f : SpecFile) (lookup : List (String × SpecFile)) (e e' : SpecEntry)
    (h : e.resolve_forwarders lookup f.forwarder_modules = .ok (e', 1)) :
    ∃ m, m ∈ f.forwarder_modules ∧ e'.forwarder = some (m, e.name) ∧
      firstExporting lookup e.name f.forwarder_modules = some m := by
  cases hf : e.forwarder with
  | some p =>
    simp only [SpecEntry.resolve_forwarders, hf] at h
    by_cases hpn : p.2 = e.name
    · rw [if_pos hpn] at h
      by_cases hnn : e.noname = true ∧ e.name = "@"
      · rw [if_pos hnn] at h
        injection h with h
        exact absurd (congrArg Prod.snd h).symm one_ne_zero
      · rw [if_neg hnn] at h
        obtain ⟨m, hfe, hm, hfwd⟩ := resolveLoop_first lookup _ _ e' h
        exact ⟨m, hm, hfwd, hfe⟩
    · rw [if_neg hpn] at h
      cases h
  | none =>
    simp only [SpecEntry.resolve_forwarders, hf] at h
    by_cases hnn : e.noname = true ∧ e.name = "@"
    · rw [if_pos hnn] at h
      injection h with h
      exact absurd (congrArg Prod.snd h).symm one_ne_zero
    · rw [if_neg hnn] at h
      obtain ⟨m, hfe, hm, hfwd⟩ := resolveLoop_first lookup _ _ e' h
      exact ⟨m, hm, hfwd, hfe⟩

/-- C5 witness: the claim at the API-set `fC5`, whose candidate list is
`["m1"]`, resolving its record `Foo` against the registry `lookupC5`. -/
theorem c5_witness :
    ∃ m, m ∈ fC5.forwarder_modules ∧
      (⟨"1", some "stdcall", "Foo", ⟨1⟩, some ("m1", "Foo"), false⟩ : SpecEntry).forwarder = some (m, eC1.name) ∧
      firstExporting lookupC5 eC1.name fC5.forwarder_modules = some m :=
  c5_pass1_first_candidate fC5 lookupC5 eC1
    ⟨"1", some "stdcall", "Foo", ⟨1⟩, some ("m1", "Foo"), false⟩ (by rfl)

/-! Claim C6: the x86_64 split of `extern` records. -/

/-- C6 (confirmed): a resolved `extern` record whose architecture set holds
x86_64 together with at least one other architecture is emitted as exactly
two lines — the non-x86_64 remainder with the `_imp__` decoration (written
first), and x86_64 alone with the `__imp_` decoration — each contributing its
own 0x100 to the size estimate. -/
theorem c6_extern_x64_split (e : SpecEntry) (fm fs : String)
    (hf : e.forwarder = some (fm, fs))
    (hcc : e.callconv = some "extern")
    (hname : ¬ e.name = "@")
    (hsmall : e.arch.val < 16)
    (hx : ¬ e.arch.val &&& 2 = 0)
    (hother : ¬ e.arch.diff ⟨2⟩ = (⟨0⟩ : Arch)) :
    e.write = .ok ([
      e.ord ++ " extern" ++ ((if e.noname then " -noname" else "") ++ " -arch=" ++ (e.arch.diff ⟨2⟩).toStr) ++ " " ++
        (if e.noname then "@" else e.name) ++ " " ++ fm ++ "._imp__" ++ fs ++ "\n",
      e.ord ++ " extern" ++ ((if e.noname then " -noname" else "") ++ " -arch=" ++ Arch.toStr ⟨2⟩) ++ " " ++
        (if e.noname then "@" else e.name) ++ " " ++ fm ++ ".__imp_" ++ fs ++ "\n"], 0x200) := by
  have hb : ∀ v : Nat, v < 16 → ¬ v &&& 2 = 0 →
      ((v - (v &&& 2)) &&& 2 = 0 ∧ ¬ (v - (v &&& 2)) = 15) := by decide
  obtain ⟨hb1, hb2⟩ := hb e.arch.val hsmall hx
  have hA : ¬ (e.name = "@" ∧ e.ord = "@") := fun hand => hname hand.1
  have harch0 : ¬ e.arch = (⟨0⟩ : Arch) := by
    intro h0
    rw [h0] at hx
    exact hx rfl
  have hhas : e.arch.has 2 = true := by
    simp [Arch.has]
    intro hz
    exact absurd hz hx
  have hinner0 : (e.arch.diff ⟨2⟩).has 2 = false := by
    simp [Arch.has, Arch.diff, hb1]
  have h15 : ¬ (e.arch.diff ⟨2⟩) = (⟨15⟩ : Arch) := by
    intro hEq
    exact hb2 (congrArg Arch.val hEq)
  have h215 : ¬ (⟨2⟩ : Arch) = (⟨15⟩ : Arch) := by decide
  simp only [SpecEntry.write, writeFuel, hf, hcc, hA, harch0, hhas, hinner0, hother, h15, h215,
    if_false, if_true, not_false_eq_true, if_neg, if_pos, ite_true, ite_false, Bool.false_eq_true]
  rfl

/-- C6 witness: the claim at the concrete record `eC6` (`extern`, name
`SomeVar`, architectures i386 and x86_64, forwarded to `module.SomeVar`). -/
theorem c6_witness :
    eC6.write = .ok (["1 extern -arch=i386 SomeVar module._imp__SomeVar\n",
                      "1 extern -arch=x86_64 SomeVar module.__imp_SomeVar\n"], 0x200) :=
  c6_extern_x64_split eC6 "module" "SomeVar" rfl rfl (by decide) (by decide) (by decide) (by decide)

/-! Claim C9: manifest base-address allocation. -/

/-- Rounding up to a 64KB boundary never decreases the address. -/
theorem align64K_le (b : Nat) : b ≤ align64K b := Nat.le_add_right _ _

/-- Unfolding equation for the allocation of a nonempty size list. -/
theorem baseAddressesFrom_head (base s : Nat) (rest : List Nat) :
    baseAddressesFrom base (s :: rest) = base :: baseAddressesFrom (align64K (base + s)) rest := rfl

/-- The allocation assigns one address per module. -/
theorem baseAddressesFrom_length (sizes : List Nat) :
    ∀ base, (baseAddressesFrom base sizes).length = sizes.length := by
  induction sizes with
  | nil => intro base; rfl
  | cons s rest ih =>
    intro base
    rw [baseAddressesFrom_head, List.length_cons, List.length_cons, ih]

/-- Consecutive base addresses are non-decreasing. -/
theorem baseAddressesFrom_chain_le (sizes : List Nat) :
    ∀ base, List.Chain' (· ≤ ·) (baseAddressesFrom base sizes) := by
  induction sizes with
  | nil => intro base; exact List.chain'_nil
  | cons s rest ih =>
    intro base
    rw [baseAddressesFrom_head]
    cases rest with
    | nil => exact List.chain'_singleton _
    | cons r rest2 =>
      rw [baseAddressesFrom_head, List.chain'_cons]
      constructor
      · exact le_trans (Nat.le_add_right base s) (align64K_le _)
      · rw [← baseAddressesFrom_head]
        exact ih _

/-- Consecutive base addresses are strictly increasing when every size
estimate is positive. -/
theorem baseAddressesFrom_chain_lt (sizes : List Nat) :
    ∀ base, (∀ s, s ∈ sizes → 0 < s) → List.Chain' (· < ·) (baseAddressesFrom base sizes) := by
  induction sizes with
  | nil => intro base _; exact List.chain'_nil
  | cons s rest ih =>
    intro base hpos
    rw [baseAddressesFrom_head]
    cases rest with
    | nil => exact List.chain'_singleton _
    | cons r rest2 =>
      rw [baseAddressesFrom_head, List.chain'_cons]
      constructor
      · exact lt_of_lt_of_le (Nat.lt_add_of_pos_right (hpos s (List.mem_cons_self _ _))) (align64K_le _)
      · rw [← baseAddressesFrom_head]
        exact ih _ (fun x hx => hpos x (List.mem_cons_of_mem _ hx))

/-- Each base address is the previous base plus the previous size, rounded up
to the next 64KB boundary. -/
theorem baseAddressesFrom_getD (sizes : List Nat) :
    ∀ base i, i + 1 < sizes.length →
    (baseAddressesFrom base sizes).getD (i + 1) 0 =
      align64K ((baseAddressesFrom base sizes).getD i 0 + sizes.getD i 0) := by
  induction sizes with
  | nil =>
    intro base i h
    exact absurd h (by simp)
  | cons s rest ih =>
    intro base i h
    cases i with
    | zero =>
      rw [baseAddressesFrom_head]
      cases rest with
      | nil =>
        rw [List.length_cons] at h
        exact absurd h (by simp)
      | cons r rest2 =>
        rw [baseAddressesFrom_head]
        rfl
    | succ j =>
      rw [baseAddressesFrom_head]
      have hj : j + 1 < rest.length := by
        rw [List.length_cons] at h
        omega
      simpa using ih (align64K (base + s)) j hj

/-- C9 (corrected): the first API-set's base is the fixed constant
`0x60000000` and every following base is the previous base plus the previous
size estimate rounded up to the next 64KB multiple; the addresses are
NON-DECREASING, and strictly increasing only when every size estimate is
positive — a zero-size module (e.g. one whose records are all blacklisted)
repeats its predecessor's address. -/
theorem c9_base_address_allocation (sizes : List Nat) :
    (apisetBases sizes).length = sizes.length ∧
    (¬ sizes = [] → (apisetBases sizes).headD 0 = 0x60000000) ∧
    (∀ i, i + 1 < sizes.length →
      (apisetBases sizes).getD (i + 1) 0 = align64K ((apisetBases sizes).getD i 0 + sizes.getD i 0)) ∧
    List.Chain' (· ≤ ·) (apisetBases sizes) ∧
    ((∀ s, s ∈ sizes → 0 < s) → List.Chain' (· < ·) (apisetBases sizes)) := by
  refine ⟨baseAddressesFrom_length sizes _, ?_, fun i hi => baseAddressesFrom_getD sizes _ i hi,
    baseAddressesFrom_chain_le sizes _, fun hpos => baseAddressesFrom_chain_lt sizes _ hpos⟩
  intro hne
  cases sizes with
  | nil => exact absurd rfl hne
  | cons s rest => rfl

/-- C9 witness: the amended claim at the concrete sizes 256 and 70000 —
the second base is the 64KB round-up of `0x60000000 + 256`, and the
addresses are strictly increasing since both sizes are positive. -/
theorem c9_witness :
    (apisetBases [256, 70000]).getD 1 0 =
      align64K ((apisetBases [256, 70000]).getD 0 0 + ([256, 70000] : List Nat).getD 0 0) ∧
    (apisetBases [256, 70000]).headD 0 = 0x60000000 ∧
    List.Chain' (· < ·) (apisetBases [256, 70000]) :=
  ⟨(c9_base_address_allocation [256, 70000]).2.2.1 0 (by decide),
   (c9_base_address_allocation [256, 70000]).2.1 (by decide),
   (c9_base_address_allocation [256, 70000]).2.2.2.2 (by decide)⟩

/-- C9 counterexample: an API-set whose only record is blacklisted has size
estimate 0, and with sizes `[0, 256]` the first two assigned addresses are
BOTH `0x60000000` — the addresses are not strictly increasing, refuting that
part of the claim. -/
theorem c9_counterexample :
    rotlFile.write = .ok ([], 0) ∧
    apisetBases [0, 256] = [0x60000000, 0x60000000] ∧
    ¬ List.Chain' (· < ·) (apisetBases [0, 256]) :=
  ⟨by rfl, by rfl, by
    rw [show apisetBases [0, 256] = [0x60000000, 0x60000000] from rfl, List.chain'_cons]
    intro hcontra
    exact absurd hcontra.1 (lt_irrefl _)⟩

/-! Claim C10: the pass-1 precondition on source forward targets. -/

/-- Every entry produced by `initAfterName` has `noname = false`. -/
theorem initAfterName_noname (arch : Arch) (o cc name : String) (tokens : List String) (e0 : SpecEntry)
    (h : initAfterName arch o cc name tokens = .ok e0) : e0.noname = false := by
  unfold initAfterName at h
  repeat' split at h
  all_goals try (cases h; rfl)
  all_goals try simp at h
  all_goals repeat' split at h
  all_goals first
    | (cases h; rfl)
    | simp at h

/-- Every entry produced by `initOptions` has `noname = false`. -/
theorem initOptions_noname (o cc : String) :
    ∀ (tokens : List String) (arch : Arch) (name : String) (e0 : SpecEntry),
    initOptions arch o cc name tokens = .ok e0 → e0.noname = false := by
  intro tokens
  induction tokens with
  | nil =>
    intro arch name e0 h
    unfold initOptions at h
    split at h
    · repeat' split at h
      all_goals try simp_all
      all_goals split at h
      all_goals simp at h
    · exact initAfterName_noname _ o cc name _ e0 h
  | cons n rest ih =>
    intro arch name e0 h
    unfold initOptions at h
    split at h
    · repeat' split at h
      all_goals try simp_all
      all_goals first
        | exact ih _ _ _ h
        | (split at h
           all_goals first
             | simp at h
             | exact ih _ _ _ h)
    · exact initAfterName_noname _ o cc name _ e0 h

/-- Every entry produced by `specEntryInit` has `noname = false` (the flag is
only set by the constructor wrapper). -/
theorem specEntryInit_noname (text : String) (e0 : SpecEntry)
    (h : specEntryInit text = .ok e0) : e0.noname = false := by
  unfold specEntryInit at h
  split at h
  · cases h
  · split at h
    · split at h
      · simp at h
      · split at h
        · simp at h
        · exact initOptions_noname _ _ _ _ _ _ h
    · simp at h

/-- C10 (confirmed): a record entering pass 1 with a forward target whose
symbol differs from the record's name fails the assertion and aborts the
whole run; and unnamed records can never trip it, because when construction
sees the unnamed marker with a forward target it replaces the record's name
by the forward target's symbol name. -/
theorem c10_forwarder_name_precondition :
    (∀ (e : SpecEntry) (lookup : List (String × SpecFile)) (mods : List String) (m s : String),
      e.forwarder = some (m, s) → ¬ s = e.name →
      e.resolve_forwarders lookup mods = .error "assert forwarder name equals record name") ∧
    (∀ (text : String) (e : SpecEntry), mkSpecEntry text = .ok e → e.noname = true →
      ∀ p : String × String, e.forwarder = some p → e.name = p.2) := by
  constructor
  · intro e lookup mods m s hf hs
    simp only [SpecEntry.resolve_forwarders, hf]
    rw [if_neg hs]
  · intro text e hok hnn p hp
    unfold mkSpecEntry at hok
    cases hinit : specEntryInit text with
    | invalid =>
      simp only [hinit] at hok
      cases hok
    | fatal m =>
      simp only [hinit] at hok
      cases hok
    | ok e0 =>
      simp only [hinit] at hok
      by_cases h0 : e0.name = "@"
      · rw [if_pos h0] at hok
        cases hf0 : e0.forwarder with
        | some f =>
          rw [hf0] at hok
          injection hok with hok
          subst hok
          simp only at hp
          injection hp with hp
          subst hp
          rfl
        | none =>
          rw [hf0] at hok
          injection hok with hok
          subst hok
          simp only at hp
          simp at hp
      · rw [if_neg h0] at hok
        injection hok with hok
        subst hok
        have := specEntryInit_noname text e0 hinit
        rw [hnn] at this
        cases this

/-- C10 witness: the record `eC10bad` (name `Foo`, forward target
`kernel32.Bar`) aborts pass 1; and the record parsed from
`@ stdcall @ kernel32.Foo` got the name `Foo` from its forward target. -/
theorem c10_witness :
    SpecEntry.resolve_forwarders eC10bad [] [] = .error "assert forwarder name equals record name" ∧
    eC10at.name = ("kernel32", "Foo").2 :=
  ⟨c10_forwarder_name_precondition.1 eC10bad [] [] "kernel32" "Bar" rfl (by decide),
   c10_forwarder_name_precondition.2 "@ stdcall @ kernel32.Foo" eC10at (by rfl) rfl ("kernel32", "Foo") rfl⟩

end ApiSets
